import Mathlib

/-!
Verification of the sliding-window rate limiter implemented in
`src/services/RateLimiterService.ts`.

The embedding below is a shallow model of that TypeScript class.  Times are
wall-clock milliseconds, modelled as `Int` (JavaScript numbers used as
integers).  The `Map<string, ClientRecord>` store is modelled as a function
`String → Option ClientRecord`, and each method of the class becomes a pure
function from the service state (plus the `Date.now()` value of the call) to
a result together with the successor state.

Two JavaScript-specific details of the source are modelled faithfully:
* `clientRecord.requests[0] || now` yields `now` not only when the array is
  empty but also when its first element is the falsy number `0`
  (`jsOrElse`);
* `options.message || '...'` treats the empty string as falsy
  (`resolveMessage`);
* `Math.ceil(x / 1000)` on integer `x` is exact ceiling division
  (`jsCeilDiv`).
-/

namespace RateLimiterSpec

/-- JavaScript `x || d` applied to the optional first element of an array of
numbers: `undefined` (here `none`) and the falsy number `0` both fall back to
the default `d`. -/
def jsOrElse (x : Option Int) (d : Int) : Int :=
  match x with
  | none => d
  | some t => if t = 0 then d else t

/-- `Math.ceil(a / b)` for integers `a` and positive `b`: exact ceiling
division, written via Euclidean (floor, for positive `b`) division. -/
def jsCeilDiv (a b : Int) : Int :=
  -((-a) / b)

/-- Mirrors the `ClientRecord` interface of the source: the array of request
timestamps and the last-accessed timestamp. -/
structure ClientRecord where
  requests : List Int
  lastAccessed : Int
deriving DecidableEq

/-- Mirrors the `RateLimiterOptions` interface of the source; `message` is an
optional field. -/
structure RateLimiterOptions where
  maxRequests : Int
  windowMs : Int
  message : Option String := none

/-- The options after the constructor applied its defaults
(`Required<RateLimiterOptions>`). -/
structure ResolvedOptions where
  maxRequests : Int
  windowMs : Int
  message : String

/-- The default rate-limit message of the source constructor. -/
def defaultMessage : String :=
  "Too many requests, please try again later."

/-- JavaScript `options.message || default`: `undefined` and the falsy empty
string both fall back to the default. -/
def resolveMessage (m : Option String) : String :=
  match m with
  | none => defaultMessage
  | some s => if s = "" then defaultMessage else s

/-- The mutable state of a `RateLimiterService` instance: the client map and
the resolved options.  The cleanup timer handle carries no data relevant to
the claims and is omitted. -/
structure RateLimiterState where
  clients : String → Option ClientRecord
  options : ResolvedOptions

/-- The constructor of `RateLimiterService`: empty client map, options stored
with the message default applied.  The source constructor performs no
validation of `maxRequests` or `windowMs`. -/
def mkRateLimiterService (options : RateLimiterOptions) : RateLimiterState :=
  { clients := fun _ => none
    options :=
      { maxRequests := options.maxRequests
        windowMs := options.windowMs
        message := resolveMessage options.message } }

/-- The window trim of the source
(`requests.filter(timestamp => timestamp > windowStart)` with
`windowStart = now - windowMs`). -/
def trimWindow (windowMs now : Int) (requests : List Int) : List Int :=
  requests.filter fun timestamp => now - windowMs < timestamp

/-- The requests array `checkLimit` starts from: the stored record's array,
or the fresh empty record created for an unseen client. -/
def storedRequests (s : RateLimiterState) (clientId : String) (now : Int) : List Int :=
  ((s.clients clientId).getD { requests := [], lastAccessed := now }).requests

/-- The requests array after the window trim inside `checkLimit`. -/
def trimmedRequests (s : RateLimiterState) (clientId : String) (now : Int) : List Int :=
  trimWindow s.options.windowMs now (storedRequests s clientId now)

/-- The admission decision of `checkLimit`:
`requestCount < this.options.maxRequests`. -/
def allowedAt (s : RateLimiterState) (clientId : String) (now : Int) : Bool :=
  decide (((trimmedRequests s clientId now).length : Int) < s.options.maxRequests)

/-- The requests array stored back by `checkLimit`: the trimmed array, with
`now` pushed at the end when the request is allowed. -/
def newRequestsAt (s : RateLimiterState) (clientId : String) (now : Int) : List Int :=
  if allowedAt s clientId now then trimmedRequests s clientId now ++ [now]
  else trimmedRequests s clientId now

/-- The result record returned by `checkLimit`. -/
structure CheckResult where
  allowed : Bool
  remaining : Int
  resetAt : Int
  retryAfter : Option Int
deriving DecidableEq

/-- `checkLimit(clientId)` of the source, at wall-clock time `now`: trims the
stored history to the window, decides admission, pushes `now` when allowed,
updates `lastAccessed`, and computes `remaining`, `resetAt` and `retryAfter`
exactly as the source does (including the `requests[0] || now` fallback). -/
def checkLimit (s : RateLimiterState) (clientId : String) (now : Int) :
    CheckResult × RateLimiterState :=
  let trimmed := trimmedRequests s clientId now
  let remaining : Int := max 0 (s.options.maxRequests - (trimmed.length : Int))
  let allowed := allowedAt s clientId now
  let newRequests := newRequestsAt s clientId now
  let oldestRequest := jsOrElse newRequests.head? now
  let resetAt := oldestRequest + s.options.windowMs
  ({ allowed := allowed
     remaining := if allowed then remaining - 1 else 0
     resetAt := resetAt
     retryAfter := if allowed then none else some (jsCeilDiv (resetAt - now) 1000) },
   { s with
     clients := fun k =>
       if k = clientId then some { requests := newRequests, lastAccessed := now }
       else s.clients k })

/-- The result record returned by `getStatus`. -/
structure StatusResult where
  requestCount : Int
  remaining : Int
  resetAt : Int
deriving DecidableEq

/-- `getStatus(clientId)` of the source, at wall-clock time `now`.  The
source filters the stored array into a local `validRequests` and never writes
anything back, so the state component of the result is the input state. -/
def getStatus (s : RateLimiterState) (clientId : String) (now : Int) :
    StatusResult × RateLimiterState :=
  match s.clients clientId with
  | none =>
      ({ requestCount := 0
         remaining := s.options.maxRequests
         resetAt := now + s.options.windowMs }, s)
  | some clientRecord =>
      let validRequests := trimWindow s.options.windowMs now clientRecord.requests
      let requestCount : Int := validRequests.length
      let remaining : Int := max 0 (s.options.maxRequests - requestCount)
      let oldestRequest := jsOrElse validRequests.head? now
      let resetAt := oldestRequest + s.options.windowMs
      ({ requestCount := requestCount
         remaining := remaining
         resetAt := resetAt }, s)

/-- `resetClient(clientId)` of the source: deletes the record, if present. -/
def resetClient (s : RateLimiterState) (clientId : String) : RateLimiterState :=
  { s with clients := fun k => if k = clientId then none else s.clients k }

/-- `resetAll()` of the source: clears the whole map. -/
def resetAll (s : RateLimiterState) : RateLimiterState :=
  { s with clients := fun _ => none }

/-- `cleanupStaleRecords()` of the source, at wall-clock time `now`: deletes
every record whose `lastAccessed` is older than `now - 2 * windowMs`. -/
def cleanupStaleRecords (s : RateLimiterState) (now : Int) : RateLimiterState :=
  { s with
    clients := fun k =>
      (s.clients k).bind fun record =>
        if record.lastAccessed < now - s.options.windowMs * 2 then none
        else some record }

/-- One engine operation, with the wall-clock time of the call where the
source reads `Date.now()`. -/
inductive Op where
  | check (clientId : String) (now : Int)
  | status (clientId : String) (now : Int)
  | reset (clientId : String)
  | clear
  | cleanup (now : Int)

/-- The state transition of one operation. -/
def applyOp (s : RateLimiterState) (op : Op) : RateLimiterState :=
  match op with
  | .check clientId now => (checkLimit s clientId now).2
  | .status clientId now => (getStatus s clientId now).2
  | .reset clientId => resetClient s clientId
  | .clear => resetAll s
  | .cleanup now => cleanupStaleRecords s now

/-- Runs a sequence of operations from a state. -/
def runOps (s : RateLimiterState) (ops : List Op) : RateLimiterState :=
  ops.foldl applyOp s

/-- A store state reachable from a freshly constructed service by a sequence
of engine operations. -/
def reachAfter (options : RateLimiterOptions) (ops : List Op) : RateLimiterState :=
  runOps (mkRateLimiterService options) ops

/-- An operation directed at one fixed client (used to state client
isolation): an admission check, a status query, or a per-client reset. -/
inductive ClientOp where
  | check (now : Int)
  | status (now : Int)
  | reset

/-- Applies a client-directed operation to the given client. -/
def applyClientOp (s : RateLimiterState) (clientId : String) (op : ClientOp) :
    RateLimiterState :=
  match op with
  | .check now => (checkLimit s clientId now).2
  | .status now => (getStatus s clientId now).2
  | .reset => resetClient s clientId

/-- Runs a sequence of operations all directed at one client. -/
def runClientOps (s : RateLimiterState) (clientId : String) (ops : List ClientOp) :
    RateLimiterState :=
  ops.foldl (fun st op => applyClientOp st clientId op) s

/-- Iterated `checkLimit` calls for one client at times `ts 0, ts 1, ...`:
`iterCheck s clientId ts i` is the state after the first `i` calls. -/
def iterCheck (s : RateLimiterState) (clientId : String) (ts : Nat → Int) :
    Nat → RateLimiterState
  | 0 => s
  | i + 1 => (checkLimit (iterCheck s clientId ts i) clientId (ts i)).2

/-- The number of stored timestamps for a client that lie inside the window
ending at `now`. -/
def inWindowCount (s : RateLimiterState) (clientId : String) (now : Int) : Nat :=
  (trimWindow s.options.windowMs now
    (((s.clients clientId).map ClientRecord.requests).getD [])).length

/-- Every stored record holds at most `maxRequests` timestamps. -/
def RecordsBounded (s : RateLimiterState) : Prop :=
  ∀ k r, s.clients k = some r → (r.requests.length : Int) ≤ s.options.maxRequests

/-! ### Bridge lemmas: projections of `checkLimit` and `getStatus` -/

theorem checkLimit_fst_allowed (s : RateLimiterState) (c : String) (n : Int) :
    (checkLimit s c n).1.allowed = allowedAt s c n := rfl

theorem checkLimit_fst_remaining (s : RateLimiterState) (c : String) (n : Int) :
    (checkLimit s c n).1.remaining =
      if allowedAt s c n then
        max 0 (s.options.maxRequests - ((trimmedRequests s c n).length : Int)) - 1
      else 0 := rfl

theorem checkLimit_fst_resetAt (s : RateLimiterState) (c : String) (n : Int) :
    (checkLimit s c n).1.resetAt =
      jsOrElse (newRequestsAt s c n).head? n + s.options.windowMs := rfl

theorem checkLimit_fst_retryAfter (s : RateLimiterState) (c : String) (n : Int) :
    (checkLimit s c n).1.retryAfter =
      if allowedAt s c n then none
      else some (jsCeilDiv ((checkLimit s c n).1.resetAt - n) 1000) := rfl

theorem checkLimit_snd_clients (s : RateLimiterState) (c : String) (n : Int)
    (k : String) :
    (checkLimit s c n).2.clients k =
      if k = c then some { requests := newRequestsAt s c n, lastAccessed := n }
      else s.clients k := rfl

theorem checkLimit_snd_options (s : RateLimiterState) (c : String) (n : Int) :
    (checkLimit s c n).2.options = s.options := rfl

theorem getStatus_snd (s : RateLimiterState) (c : String) (n : Int) :
    (getStatus s c n).2 = s := by
  unfold getStatus
  cases s.clients c <;> rfl

theorem allowedAt_true_iff (s : RateLimiterState) (c : String) (n : Int) :
    allowedAt s c n = true ↔
      ((trimmedRequests s c n).length : Int) < s.options.maxRequests := by
  simp [allowedAt]

theorem allowedAt_false_iff (s : RateLimiterState) (c : String) (n : Int) :
    allowedAt s c n = false ↔
      s.options.maxRequests ≤ ((trimmedRequests s c n).length : Int) := by
  simp [allowedAt]

theorem trimmedRequests_length_le (s : RateLimiterState) (c : String) (n : Int) :
    (trimmedRequests s c n).length ≤ (storedRequests s c n).length :=
  List.length_filter_le _ _

theorem applyOp_options (s : RateLimiterState) (op : Op) :
    (applyOp s op).options = s.options := by
  cases op with
  | check clientId now => rfl
  | status clientId now => rw [applyOp, getStatus_snd]
  | reset clientId => rfl
  | clear => rfl
  | cleanup now => rfl

theorem runOps_options (s : RateLimiterState) (ops : List Op) :
    (runOps s ops).options = s.options := by
  induction ops generalizing s with
  | nil => rfl
  | cons op ops ih =>
      unfold runOps at ih ⊢
      rw [List.foldl_cons, ih, applyOp_options]

theorem reachAfter_options_max (opts : RateLimiterOptions) (ops : List Op) :
    (reachAfter opts ops).options.maxRequests = opts.maxRequests := by
  unfold reachAfter
  rw [runOps_options]
  rfl

theorem reachAfter_options_win (opts : RateLimiterOptions) (ops : List Op) :
    (reachAfter opts ops).options.windowMs = opts.windowMs := by
  unfold reachAfter
  rw [runOps_options]
  rfl

/-! ### Sample client identifiers and states for witnesses -/

def cId : String := "c"

def aId : String := "a"

def bId : String := "b"

/-- Options used by several concrete witnesses. -/
def wOpts : RateLimiterOptions :=
  { maxRequests := 2, windowMs := 1000 }

/-! ### Claim C2 -/

/-- Claim C2, counterexample: constructing the service with
`maxRequests = 0` does not fail — there is no validation in the constructor —
and the malformed configuration is surfaced per-request: the very first
`checkLimit` call returns an ordinary rejection result. -/
theorem C2_counterexample :
    (mkRateLimiterService { maxRequests := 0, windowMs := 1000 }).options.maxRequests = 0 ∧
    (checkLimit (mkRateLimiterService { maxRequests := 0, windowMs := 1000 }) cId 5000).1 =
      { allowed := false, remaining := 0, resetAt := 6000, retryAfter := some 1 } := by
  constructor
  · rfl
  · rfl

/-- Claim C2 (amended): the constructor performs no validation at all: any
options value, including one with `maxRequests ≤ 0` or `windowMs ≤ 0`, is
accepted and stored unchanged (no `ConfigurationError` exists in the code),
and a non-positive `maxRequests` instead surfaces on every `checkLimit` call
in the engine's whole lifetime — in every state reachable by any sequence of
operations from construction — as a per-request rejection. -/
theorem C2_no_construction_validation (opts : RateLimiterOptions)
    (k clientId : String) (ops : List Op) (now : Int) :
    (mkRateLimiterService opts).options.maxRequests = opts.maxRequests ∧
    (mkRateLimiterService opts).options.windowMs = opts.windowMs ∧
    (mkRateLimiterService opts).clients k = none ∧
    (opts.maxRequests ≤ 0 →
      (checkLimit (reachAfter opts ops) clientId now).1.allowed = false) := by
  refine ⟨rfl, rfl, rfl, fun h => ?_⟩
  rw [checkLimit_fst_allowed, allowedAt_false_iff, reachAfter_options_max]
  omega

/-- Claim C2, witness: the amended theorem applied to the concrete options
`maxRequests = 0, windowMs = 1000`, for a call made after a previous
(likewise rejected) call already touched the store. -/
theorem C2_witness :
    (mkRateLimiterService { maxRequests := 0, windowMs := 1000 }).options.maxRequests = 0 ∧
    (mkRateLimiterService { maxRequests := 0, windowMs := 1000 }).options.windowMs = 1000 ∧
    (mkRateLimiterService { maxRequests := 0, windowMs := 1000 }).clients bId = none ∧
    ((0 : Int) ≤ 0 →
      (checkLimit (reachAfter { maxRequests := 0, windowMs := 1000 } [Op.check bId 100]) bId
        5000).1.allowed = false) := by
  have h := C2_no_construction_validation { maxRequests := 0, windowMs := 1000 } bId bId
    [Op.check bId 100] 5000
  exact ⟨h.1, h.2.1, h.2.2.1, h.2.2.2⟩

/-! ### Claim C4 -/

/-- Concrete state for the C4 counterexample: one client with a single
timestamp `50` that is far outside the window at time `2000`, and a stale
`lastAccessed`. -/
def c4State : RateLimiterState :=
  { clients := fun k =>
      if k = cId then some { requests := [50], lastAccessed := 50 } else none
    options := { maxRequests := 3, windowMs := 1000, message := defaultMessage } }

/-- Claim C4, counterexample: `getStatus` at time `2000` leaves the stored
record exactly as it was — the expired timestamp `50` is still stored and
`lastAccessed` is still `50` — contradicting the claim that the call trims
the stored history and sets `lastAccessed` to the current time. -/
theorem C4_counterexample :
    (getStatus c4State cId 2000).2.clients cId =
      some { requests := [50], lastAccessed := 50 } ∧
    (getStatus c4State cId 2000).2.clients cId ≠
      some { requests := [], lastAccessed := 2000 } := by
  constructor
  · rfl
  · decide

/-- Claim C4 (amended): `getStatus` never mutates the store: the window trim
is computed on a local copy of the record's array, nothing is written back,
and `lastAccessed` is not updated (only `checkLimit` updates it).  The state
after any `getStatus` call is the state before it. -/
theorem C4_getStatus_pure (s : RateLimiterState) (clientId : String) (now : Int) :
    (getStatus s clientId now).2 = s :=
  getStatus_snd s clientId now

/-! ### Claim C8 -/

/-- Runs a sequence of `getStatus` queries, each given as a client identifier
and a wall-clock time, threading the state. -/
def runStatusQueries (s : RateLimiterState) (queries : List (String × Int)) :
    RateLimiterState :=
  queries.foldl (fun st q => (getStatus st q.1 q.2).2) s

theorem runStatusQueries_eq (s : RateLimiterState) (queries : List (String × Int)) :
    runStatusQueries s queries = s := by
  induction queries with
  | nil => rfl
  | cons q qs ih =>
      unfold runStatusQueries at ih ⊢
      rw [List.foldl_cons, getStatus_snd]
      exact ih

/-- Claim C8: any number of interleaved `getStatus` calls (for any clients,
at any times) changes nothing about a subsequent `checkLimit` call — result
and successor state are identical to the run without the status queries.
`getStatus` consumes no quota. -/
theorem C8_getStatus_no_quota (s : RateLimiterState)
    (queries : List (String × Int)) (clientId : String) (now : Int) :
    checkLimit (runStatusQueries s queries) clientId now = checkLimit s clientId now := by
  rw [runStatusQueries_eq]

/-! ### Claim C10 -/

/-- Claim C10: a rejected `checkLimit` call still mutates the existing
record: the stored history becomes the trimmed history (timestamps at or
before `now - windowMs` are dropped), `lastAccessed` becomes `now`, and
nothing is appended. -/
theorem C10_rejection_mutates (s : RateLimiterState) (clientId : String)
    (now : Int) (r : ClientRecord)
    (hr : s.clients clientId = some r)
    (hblocked : (checkLimit s clientId now).1.allowed = false) :
    (checkLimit s clientId now).2.clients clientId =
      some { requests := trimWindow s.options.windowMs now r.requests
             lastAccessed := now } := by
  rw [checkLimit_snd_clients, if_pos rfl]
  rw [checkLimit_fst_allowed] at hblocked
  unfold newRequestsAt
  rw [hblocked]
  simp only [Bool.false_eq_true, if_false]
  unfold trimmedRequests storedRequests
  rw [hr]
  rfl

/-- Concrete state for the C10 witness: limit 1, one client holding an
expired timestamp `50` and an in-window timestamp `600`. -/
def c10State : RateLimiterState :=
  { clients := fun k =>
      if k = cId then some { requests := [50, 600], lastAccessed := 600 } else none
    options := { maxRequests := 1, windowMs := 1000, message := defaultMessage } }

/-- Claim C10, witness: at time `1100` the call is rejected (the timestamp
`600` is still in the window and the limit is 1), yet the stored record is
rewritten: `50` is trimmed away and `lastAccessed` becomes `1100`. -/
theorem C10_witness :
    (checkLimit c10State cId 1100).2.clients cId =
      some { requests := trimWindow c10State.options.windowMs 1100 [50, 600]
             lastAccessed := 1100 } :=
  C10_rejection_mutates c10State cId 1100 { requests := [50, 600], lastAccessed := 600 }
    rfl (by decide)

/-! ### Claim C6 -/

/-- Claim C6: with `maxRequests ≥ 1`, the `remaining` returned by
`checkLimit` equals `max(0, maxRequests - count)` minus 1 when the call is
allowed (minus 0 otherwise), where `count` is the in-window count after
trimming; it never goes below 0 and always lies in `[0, maxRequests]`. -/
theorem C6_remaining_bounds (s : RateLimiterState) (clientId : String) (now : Int)
    (hmax : 1 ≤ s.options.maxRequests) :
    (checkLimit s clientId now).1.remaining =
      max 0 (s.options.maxRequests - ((trimmedRequests s clientId now).length : Int)) -
        (if (checkLimit s clientId now).1.allowed then 1 else 0) ∧
    0 ≤ (checkLimit s clientId now).1.remaining ∧
    (checkLimit s clientId now).1.remaining ≤ s.options.maxRequests := by
  rw [checkLimit_fst_remaining, checkLimit_fst_allowed]
  rcases hA : allowedAt s clientId now with _ | _
  · have hge : s.options.maxRequests ≤ ((trimmedRequests s clientId now).length : Int) :=
      (allowedAt_false_iff s clientId now).1 hA
    rw [max_eq_left (by omega)]
    simp only [Bool.false_eq_true, if_false]
    omega
  · have hlt : ((trimmedRequests s clientId now).length : Int) < s.options.maxRequests :=
      (allowedAt_true_iff s clientId now).1 hA
    rw [max_eq_right (by omega)]
    simp only [eq_self_iff_true, if_true]
    exact ⟨trivial, by omega, by omega⟩

/-- Concrete state for the C6 witness: limit 3, one client with one stored
in-window timestamp. -/
def c6State : RateLimiterState :=
  { clients := fun k =>
      if k = cId then some { requests := [100], lastAccessed := 100 } else none
    options := { maxRequests := 3, windowMs := 1000, message := defaultMessage } }

/-- Claim C6, witness: the theorem applied at a concrete allowed call
(count 1 of limit 3, so `remaining = 1`, within bounds). -/
theorem C6_witness :
    (checkLimit c6State cId 200).1.remaining =
      max 0 (c6State.options.maxRequests - ((trimmedRequests c6State cId 200).length : Int)) -
        (if (checkLimit c6State cId 200).1.allowed then 1 else 0) ∧
    0 ≤ (checkLimit c6State cId 200).1.remaining ∧
    (checkLimit c6State cId 200).1.remaining ≤ c6State.options.maxRequests :=
  C6_remaining_bounds c6State cId 200 (by decide)

/-! ### Claim C9 -/

theorem applyClientOp_options (s : RateLimiterState) (clientId : String) (op : ClientOp) :
    (applyClientOp s clientId op).options = s.options := by
  cases op with
  | check now => rfl
  | status now => rw [applyClientOp, getStatus_snd]
  | reset => rfl

theorem applyClientOp_clients_other (s : RateLimiterState) (clientId : String)
    (op : ClientOp) (k : String) (hk : k ≠ clientId) :
    (applyClientOp s clientId op).clients k = s.clients k := by
  cases op with
  | check now => rw [applyClientOp, checkLimit_snd_clients, if_neg hk]
  | status now => rw [applyClientOp, getStatus_snd]
  | reset => exact if_neg hk

theorem runClientOps_options (s : RateLimiterState) (clientId : String)
    (ops : List ClientOp) :
    (runClientOps s clientId ops).options = s.options := by
  induction ops generalizing s with
  | nil => rfl
  | cons op ops ih =>
      unfold runClientOps at ih ⊢
      rw [List.foldl_cons, ih, applyClientOp_options]

theorem runClientOps_clients_other (s : RateLimiterState) (clientId : String)
    (ops : List ClientOp) (k : String) (hk : k ≠ clientId) :
    (runClientOps s clientId ops).clients k = s.clients k := by
  induction ops generalizing s with
  | nil => rfl
  | cons op ops ih =>
      unfold runClientOps at ih ⊢
      rw [List.foldl_cons, ih, applyClientOp_clients_other s clientId op k hk]

theorem checkLimit_fst_congr (s₁ s₂ : RateLimiterState) (c : String) (n : Int)
    (hc : s₁.clients c = s₂.clients c) (ho : s₁.options = s₂.options) :
    (checkLimit s₁ c n).1 = (checkLimit s₂ c n).1 := by
  simp only [checkLimit, newRequestsAt, allowedAt, trimmedRequests, storedRequests,
    trimWindow, hc, ho]

theorem getStatus_fst_congr (s₁ s₂ : RateLimiterState) (c : String) (n : Int)
    (hc : s₁.clients c = s₂.clients c) (ho : s₁.options = s₂.options) :
    (getStatus s₁ c n).1 = (getStatus s₂ c n).1 := by
  unfold getStatus
  rw [hc, ho]
  cases s₂.clients c <;> rfl

/-- Claim C9: full isolation between clients.  Any sequence of `checkLimit`,
`getStatus` and `resetClient` operations directed at `c1` leaves the stored
record of a different client `c2` unchanged, and the results of a subsequent
`checkLimit` or `getStatus` for `c2` are exactly what they would have been
without that sequence. -/
theorem C9_client_isolation (s : RateLimiterState) (c1 c2 : String)
    (ops : List ClientOp) (now now2 : Int) (hne : c1 ≠ c2) :
    (runClientOps s c1 ops).clients c2 = s.clients c2 ∧
    (checkLimit (runClientOps s c1 ops) c2 now).1 = (checkLimit s c2 now).1 ∧
    (getStatus (runClientOps s c1 ops) c2 now2).1 = (getStatus s c2 now2).1 := by
  have hc : (runClientOps s c1 ops).clients c2 = s.clients c2 :=
    runClientOps_clients_other s c1 ops c2 (Ne.symm hne)
  have ho : (runClientOps s c1 ops).options = s.options :=
    runClientOps_options s c1 ops
  exact ⟨hc, checkLimit_fst_congr _ _ c2 now hc ho, getStatus_fst_congr _ _ c2 now2 hc ho⟩

/-- Concrete state for the C9 witness: two clients, each with one stored
timestamp. -/
def c9State : RateLimiterState :=
  { clients := fun k =>
      if k = aId then some { requests := [100], lastAccessed := 100 }
      else if k = bId then some { requests := [150], lastAccessed := 150 }
      else none
    options := { maxRequests := 2, windowMs := 1000, message := defaultMessage } }

/-- Claim C9, witness: a concrete sequence of operations on client `a`
(a check, a status query, and a reset) leaves client `b`'s record and the
results of `b`'s subsequent calls untouched. -/
theorem C9_witness :
    (runClientOps c9State aId [ClientOp.check 200, ClientOp.status 300, ClientOp.reset]).clients
        bId = c9State.clients bId ∧
    (checkLimit
        (runClientOps c9State aId [ClientOp.check 200, ClientOp.status 300, ClientOp.reset])
        bId 400).1 = (checkLimit c9State bId 400).1 ∧
    (getStatus
        (runClientOps c9State aId [ClientOp.check 200, ClientOp.status 300, ClientOp.reset])
        bId 500).1 = (getStatus c9State bId 500).1 :=
  C9_client_isolation c9State aId bId [ClientOp.check 200, ClientOp.status 300, ClientOp.reset]
    400 500 (by decide)

/-! ### Claim C5 -/

theorem jsCeilDiv_thousand (a : Int) : jsCeilDiv a 1000 = ⌈(a : ℚ) / 1000⌉ := by
  unfold jsCeilDiv
  have h : ((-a : Int) : ℚ) / ((1000 : Nat) : ℚ) = -((a : ℚ) / 1000) := by push_cast; ring
  have h2 := Rat.floor_intCast_div_natCast (-a) 1000
  rw [h, Int.floor_neg] at h2
  omega

theorem jsCeilDiv_thousand_pos (a : Int) (ha : 0 < a) : 0 < jsCeilDiv a 1000 := by
  rw [jsCeilDiv_thousand, Int.ceil_pos]
  have ha' : (0 : ℚ) < (a : ℚ) := by exact_mod_cast ha
  positivity

/-- Claim C5: with `maxRequests ≥ 1` and `windowMs ≥ 1`, and with all stored
timestamps positive (wall-clock milliseconds, as `Date.now()` produces — the
`requests[0] || now` fallback of the source would misread a stored timestamp
that is exactly the falsy number `0`), `checkLimit`
returns `resetAt` equal to the oldest trimmed-history timestamp (or `now`
when the trimmed history is empty) plus `windowMs`; `resetAt` is at least
`now`; a rejected call carries `retryAfter = ceil((resetAt - now) / 1000)`;
an admitted call carries no `retryAfter`. -/
theorem C5_resetAt_retryAfter (s : RateLimiterState) (clientId : String) (now : Int)
    (hmax : 1 ≤ s.options.maxRequests) (hw : 1 ≤ s.options.windowMs)
    (hpos : ∀ t ∈ storedRequests s clientId now, 0 < t) :
    (checkLimit s clientId now).1.resetAt =
      (trimmedRequests s clientId now).head?.getD now + s.options.windowMs ∧
    now ≤ (checkLimit s clientId now).1.resetAt ∧
    ((checkLimit s clientId now).1.allowed = false →
      (checkLimit s clientId now).1.retryAfter =
        some ⌈(((checkLimit s clientId now).1.resetAt - now : Int) : ℚ) / 1000⌉) ∧
    ((checkLimit s clientId now).1.allowed = true →
      (checkLimit s clientId now).1.retryAfter = none) := by
  have hmemw : ∀ x ∈ trimmedRequests s clientId now,
      now - s.options.windowMs < x ∧ 0 < x := by
    intro x hx
    unfold trimmedRequests trimWindow at hx
    rcases List.mem_filter.mp hx with ⟨hmem, hdec⟩
    exact ⟨of_decide_eq_true hdec, hpos x hmem⟩
  have hkey : jsOrElse (newRequestsAt s clientId now).head? now =
      (trimmedRequests s clientId now).head?.getD now := by
    unfold newRequestsAt
    cases hA : allowedAt s clientId now with
    | false =>
        simp only [Bool.false_eq_true, if_false]
        rcases htr : trimmedRequests s clientId now with _ | ⟨h, t⟩
        · exfalso
          have hge := (allowedAt_false_iff s clientId now).1 hA
          rw [htr] at hge
          simp only [List.length_nil, Nat.cast_zero] at hge
          omega
        · have hh : h > 0 := (hmemw h (htr ▸ List.mem_cons_self h t)).2
          simp [jsOrElse, ne_of_gt hh]
    | true =>
        simp only [eq_self_iff_true, if_true]
        rcases htr : trimmedRequests s clientId now with _ | ⟨h, t⟩
        · simp [jsOrElse]
        · have hh : h > 0 := (hmemw h (htr ▸ List.mem_cons_self h t)).2
          simp [jsOrElse, ne_of_gt hh]
  refine ⟨?_, ?_, ?_, ?_⟩
  · rw [checkLimit_fst_resetAt, hkey]
  · rw [checkLimit_fst_resetAt, hkey]
    rcases htr : trimmedRequests s clientId now with _ | ⟨h, t⟩
    · simp only [List.head?_nil, Option.getD_none]
      omega
    · simp only [List.head?_cons, Option.getD_some]
      have hwin : now - s.options.windowMs < h := (hmemw h (htr ▸ List.mem_cons_self h t)).1
      omega
  · intro hblocked
    have hA : allowedAt s clientId now = false := by
      rw [← checkLimit_fst_allowed]; exact hblocked
    rw [checkLimit_fst_retryAfter, hA]
    simp only [Bool.false_eq_true, if_false]
    rw [jsCeilDiv_thousand]
  · intro hallowed
    have hA : allowedAt s clientId now = true := by
      rw [← checkLimit_fst_allowed]; exact hallowed
    rw [checkLimit_fst_retryAfter, hA]
    simp only [eq_self_iff_true, if_true]

/-- Concrete state for the C5 witness: limit 3, window 1000, one stored
in-window timestamp `100`, call at time `200`. -/
def c5State : RateLimiterState :=
  { clients := fun k =>
      if k = cId then some { requests := [100], lastAccessed := 100 } else none
    options := { maxRequests := 3, windowMs := 1000, message := defaultMessage } }

/-- Claim C5, witness: the theorem applied at the concrete state `c5State`
and call time `200`. -/
theorem C5_witness :
    (checkLimit c5State cId 200).1.resetAt =
      (trimmedRequests c5State cId 200).head?.getD 200 + c5State.options.windowMs ∧
    (200 : Int) ≤ (checkLimit c5State cId 200).1.resetAt ∧
    ((checkLimit c5State cId 200).1.allowed = false →
      (checkLimit c5State cId 200).1.retryAfter =
        some ⌈(((checkLimit c5State cId 200).1.resetAt - 200 : Int) : ℚ) / 1000⌉) ∧
    ((checkLimit c5State cId 200).1.allowed = true →
      (checkLimit c5State cId 200).1.retryAfter = none) :=
  C5_resetAt_retryAfter c5State cId 200 (by decide) (by decide) (by decide)

/-! ### Claim C3 -/

theorem storedRequests_length_le (s : RateLimiterState) (c : String) (n : Int)
    (hb : RecordsBounded s) (h0 : 0 ≤ s.options.maxRequests) :
    ((storedRequests s c n).length : Int) ≤ s.options.maxRequests := by
  unfold storedRequests
  cases hc : s.clients c with
  | none => simpa using h0
  | some r => simpa using hb c r hc

theorem newRequestsAt_length_le (s : RateLimiterState) (c : String) (n : Int)
    (hb : RecordsBounded s) (h0 : 0 ≤ s.options.maxRequests) :
    ((newRequestsAt s c n).length : Int) ≤ s.options.maxRequests := by
  unfold newRequestsAt
  cases hA : allowedAt s c n with
  | false =>
      simp only [Bool.false_eq_true, if_false]
      have h1 := trimmedRequests_length_le s c n
      have h2 := storedRequests_length_le s c n hb h0
      omega
  | true =>
      have hlt := (allowedAt_true_iff s c n).1 hA
      simp only [eq_self_iff_true, if_true, List.length_append, List.length_cons,
        List.length_nil]
      omega

theorem recordsBounded_applyOp (s : RateLimiterState) (op : Op)
    (hb : RecordsBounded s) (h0 : 0 ≤ s.options.maxRequests) :
    RecordsBounded (applyOp s op) := by
  intro k r hr
  rw [applyOp_options]
  cases op with
  | check clientId now =>
      simp only [applyOp] at hr
      rw [checkLimit_snd_clients] at hr
      by_cases hk : k = clientId
      · rw [if_pos hk] at hr
        have hrec := Option.some.inj hr
        have : r.requests = newRequestsAt s clientId now := by rw [← hrec]
        rw [this]
        exact newRequestsAt_length_le s clientId now hb h0
      · rw [if_neg hk] at hr
        exact hb k r hr
  | status clientId now =>
      simp only [applyOp, getStatus_snd] at hr
      exact hb k r hr
  | reset clientId =>
      simp only [applyOp, resetClient] at hr
      by_cases hk : k = clientId
      · rw [if_pos hk] at hr
        exact Option.noConfusion hr
      · rw [if_neg hk] at hr
        exact hb k r hr
  | clear =>
      simp only [applyOp, resetAll] at hr
      exact Option.noConfusion hr
  | cleanup now =>
      simp only [applyOp, cleanupStaleRecords] at hr
      cases hc : s.clients k with
      | none =>
          rw [hc] at hr
          exact Option.noConfusion hr
      | some rec =>
          rw [hc, Option.some_bind] at hr
          by_cases hst : rec.lastAccessed < now - s.options.windowMs * 2
          · rw [if_pos hst] at hr
            exact Option.noConfusion hr
          · rw [if_neg hst] at hr
            have hrec := Option.some.inj hr
            rw [← hrec]
            exact hb k rec hc

theorem recordsBounded_runOps (ops : List Op) :
    ∀ s : RateLimiterState, RecordsBounded s → 0 ≤ s.options.maxRequests →
      RecordsBounded (runOps s ops) := by
  induction ops with
  | nil =>
      intro s hb h0
      exact hb
  | cons op ops ih =>
      intro s hb h0
      have hstep : runOps s (op :: ops) = runOps (applyOp s op) ops := rfl
      rw [hstep]
      refine ih _ (recordsBounded_applyOp s op hb h0) ?_
      rw [applyOp_options]
      exact h0

theorem recordsBounded_mk (opts : RateLimiterOptions) :
    RecordsBounded (mkRateLimiterService opts) := by
  intro k r hr
  exact Option.noConfusion hr

theorem recordsBounded_reachAfter (opts : RateLimiterOptions) (ops : List Op)
    (h0 : 0 ≤ opts.maxRequests) : RecordsBounded (reachAfter opts ops) :=
  recordsBounded_runOps ops _ (recordsBounded_mk opts) h0

theorem inWindowCount_le_of_bounded (s' : RateLimiterState) (k : String)
    (now M : Int)
    (h : ∀ rec, s'.clients k = some rec → ((rec.requests.length : Int)) ≤ M)
    (h0 : 0 ≤ M) :
    ((inWindowCount s' k now : Nat) : Int) ≤ M := by
  unfold inWindowCount
  cases hc : s'.clients k with
  | none =>
      simpa [trimWindow] using h0
  | some rec =>
      simp only [Option.map_some', Option.getD_some]
      have h1 : (trimWindow s'.options.windowMs now rec.requests).length ≤
          rec.requests.length := List.length_filter_le _ _
      have h2 := h rec hc
      omega

/-- Claim C3: in every state reachable from a fresh service by any sequence
of engine operations, a `checkLimit` call leaves at most `maxRequests`
stored in-window timestamps for every client, and when the trimmed history
already holds `maxRequests` entries the call appends nothing — it stores
exactly the trimmed history (appends happen only on allowed calls). -/
theorem C3_never_over_admits (opts : RateLimiterOptions) (ops : List Op)
    (clientId k : String) (now : Int) (hmax : 1 ≤ opts.maxRequests) :
    ((inWindowCount (checkLimit (reachAfter opts ops) clientId now).2 k now : Nat) : Int) ≤
      opts.maxRequests ∧
    (opts.maxRequests ≤ ((trimmedRequests (reachAfter opts ops) clientId now).length : Int) →
      (checkLimit (reachAfter opts ops) clientId now).2.clients clientId =
        some { requests := trimmedRequests (reachAfter opts ops) clientId now
               lastAccessed := now }) := by
  have hOmax := reachAfter_options_max opts ops
  have hb : RecordsBounded (reachAfter opts ops) :=
    recordsBounded_reachAfter opts ops (by omega)
  constructor
  · refine inWindowCount_le_of_bounded _ k now opts.maxRequests ?_ (by omega)
    intro rec hrec
    rw [checkLimit_snd_clients] at hrec
    by_cases hk : k = clientId
    · rw [if_pos hk] at hrec
      have hrec2 := Option.some.inj hrec
      have hreq : rec.requests = newRequestsAt (reachAfter opts ops) clientId now := by
        rw [← hrec2]
      rw [hreq, ← hOmax]
      exact newRequestsAt_length_le _ clientId now hb (by omega)
    · rw [if_neg hk] at hrec
      rw [← hOmax]
      exact hb k rec hrec
  · intro hge
    have hA : allowedAt (reachAfter opts ops) clientId now = false := by
      rw [allowedAt_false_iff, hOmax]
      exact hge
    rw [checkLimit_snd_clients, if_pos rfl]
    unfold newRequestsAt
    rw [hA]
    simp only [Bool.false_eq_true, if_false]

/-- Options for the C3 witness. -/
def c3Opts : RateLimiterOptions := { maxRequests := 1, windowMs := 1000 }

/-- Claim C3, witness: after admitting one request at time `100` and
rejecting one at `200` (limit 1), a further rejected call at `250` keeps the
in-window count at 1 and stores exactly the trimmed history. -/
theorem C3_witness :
    ((inWindowCount
        (checkLimit (reachAfter c3Opts [Op.check cId 100, Op.check cId 200]) cId 250).2
        cId 250 : Nat) : Int) ≤ c3Opts.maxRequests ∧
    (c3Opts.maxRequests ≤
        ((trimmedRequests (reachAfter c3Opts [Op.check cId 100, Op.check cId 200])
          cId 250).length : Int) →
      (checkLimit (reachAfter c3Opts [Op.check cId 100, Op.check cId 200]) cId 250).2.clients
          cId =
        some { requests := trimmedRequests (reachAfter c3Opts [Op.check cId 100, Op.check cId 200])
                 cId 250
               lastAccessed := 250 }) :=
  C3_never_over_admits c3Opts [Op.check cId 100, Op.check cId 200] cId cId 250 (by decide)

/-! ### Claim C7 -/

/-- Options for the C7 counterexample. -/
def c7Opts : RateLimiterOptions := { maxRequests := 2, windowMs := 1000 }

/-- Claim C7, counterexample: with limit 2 and window 1000, requests are
admitted at times 10, 610 and 1110; the call at time 1160 is rejected even
though 1160 exceeds the first admitted request's timestamp (10) by more than
`windowMs` — the in-window entries 610 and 1110 still fill the quota, so
"more than `windowMs` past the first admitted request" does not by itself
guarantee readmission. -/
theorem C7_counterexample :
    (checkLimit (mkRateLimiterService c7Opts) cId 10).1.allowed = true ∧
    (checkLimit (reachAfter c7Opts [Op.check cId 10]) cId 610).1.allowed = true ∧
    (checkLimit (reachAfter c7Opts [Op.check cId 10, Op.check cId 610]) cId
        1110).1.allowed = true ∧
    (10 : Int) + c7Opts.windowMs < 1160 ∧
    (checkLimit (reachAfter c7Opts [Op.check cId 10, Op.check cId 610, Op.check cId 1110])
        cId 1160).1.allowed = false := by
  refine ⟨rfl, rfl, rfl, by decide, rfl⟩

/-- Claim C7 (amended): in every reachable state with `maxRequests ≥ 1`, if
`now` exceeds some timestamp still stored for the client (in particular the
oldest remaining one) by more than `windowMs`, the `checkLimit` call at
`now` is admitted: that timestamp is excluded by the trim, so the in-window
count falls below the stored-record bound `maxRequests`. -/
theorem C7_sliding_readmission (opts : RateLimiterOptions) (ops : List Op)
    (clientId : String) (now t : Int) (r : ClientRecord)
    (hmax : 1 ≤ opts.maxRequests)
    (hr : (reachAfter opts ops).clients clientId = some r)
    (ht : t ∈ r.requests)
    (hexp : t + opts.windowMs < now) :
    (checkLimit (reachAfter opts ops) clientId now).1.allowed = true := by
  have hOmax := reachAfter_options_max opts ops
  have hOwin := reachAfter_options_win opts ops
  have hb : RecordsBounded (reachAfter opts ops) :=
    recordsBounded_reachAfter opts ops (by omega)
  rw [checkLimit_fst_allowed, allowedAt_true_iff]
  have hstored : storedRequests (reachAfter opts ops) clientId now = r.requests := by
    unfold storedRequests
    rw [hr]
    rfl
  have hlt : (trimmedRequests (reachAfter opts ops) clientId now).length <
      r.requests.length := by
    unfold trimmedRequests trimWindow
    rw [hstored]
    refine List.length_filter_lt_length_iff_exists.mpr ⟨t, ht, ?_⟩
    simp only [decide_eq_true_eq]
    rw [hOwin]
    omega
  have hlen := hb clientId r hr
  omega

/-- Options for the C7 witness. -/
def c7wOpts : RateLimiterOptions := { maxRequests := 1, windowMs := 1000 }

/-- Claim C7, witness: a client admitted at time 100 with limit 1 is
admitted again at time 1200, more than one window after the stored
timestamp. -/
theorem C7_witness :
    (checkLimit (reachAfter c7wOpts [Op.check cId 100]) cId 1200).1.allowed = true :=
  C7_sliding_readmission c7wOpts [Op.check cId 100] cId 1200 100
    { requests := [100], lastAccessed := 100 } (by decide) (by decide) (by decide) (by decide)

/-! ### Claim C1 -/

theorem ts0_le_of_mono (ts : Nat → Int) (N : Nat)
    (hmono : ∀ j, j < N → ts j ≤ ts (j + 1)) :
    ∀ j, j ≤ N → ts 0 ≤ ts j := by
  intro j
  induction j with
  | zero => intro _; exact le_refl _
  | succ n ih =>
      intro hj
      have h1 : ts 0 ≤ ts n := ih (by omega)
      have h2 : ts n ≤ ts (n + 1) := hmono n (by omega)
      omega

theorem trimmed_of_full (s' : RateLimiterState) (clientId : String)
    (ts : Nat → Int) (N i : Nat) (w : Int)
    (hw_eq : s'.options.windowMs = w)
    (hstore : storedRequests s' clientId (ts i) = (List.range i).map ts)
    (hmono0 : ∀ j, j ≤ N → ts 0 ≤ ts j)
    (hiw : ts i < ts 0 + w)
    (hiN : i ≤ N) :
    trimmedRequests s' clientId (ts i) = (List.range i).map ts := by
  unfold trimmedRequests trimWindow
  rw [hstore, hw_eq]
  apply List.filter_eq_self.mpr
  intro x hx
  rcases List.mem_map.mp hx with ⟨j, hj, rfl⟩
  have hji : j < i := List.mem_range.mp hj
  have h0j : ts 0 ≤ ts j := hmono0 j (by omega)
  simp only [decide_eq_true_eq]
  omega

theorem allowed_of_full (s' : RateLimiterState) (clientId : String)
    (ts : Nat → Int) (N i : Nat)
    (hmax_eq : s'.options.maxRequests = (N : Int))
    (htrim : trimmedRequests s' clientId (ts i) = (List.range i).map ts) :
    allowedAt s' clientId (ts i) = decide (i < N) := by
  unfold allowedAt
  rw [htrim, hmax_eq]
  simp only [List.length_map, List.length_range]
  exact decide_eq_decide.mpr Nat.cast_lt

theorem iterCheck_spec (s0 : RateLimiterState) (clientId : String)
    (ts : Nat → Int) (N : Nat)
    (hkey : s0.clients clientId = none)
    (hmaxN : s0.options.maxRequests = (N : Int))
    (hmono : ∀ j, j < N → ts j ≤ ts (j + 1))
    (hwin : ∀ j, j ≤ N → ts j < ts 0 + s0.options.windowMs) :
    ∀ i, i ≤ N →
      (iterCheck s0 clientId ts i).options = s0.options ∧
      (∀ m : Int, storedRequests (iterCheck s0 clientId ts i) clientId m =
        (List.range i).map ts) := by
  have hmono0 := ts0_le_of_mono ts N hmono
  intro i
  induction i with
  | zero =>
      intro _
      refine ⟨rfl, fun m => ?_⟩
      show ((s0.clients clientId).getD { requests := [], lastAccessed := m }).requests = _
      rw [hkey]
      rfl
  | succ n ih =>
      intro hn
      obtain ⟨hopt, hstore⟩ := ih (by omega)
      have htrim := trimmed_of_full (iterCheck s0 clientId ts n) clientId ts N n
        s0.options.windowMs (by rw [hopt]) (hstore (ts n)) hmono0 (hwin n (by omega))
        (by omega)
      have hallow : allowedAt (iterCheck s0 clientId ts n) clientId (ts n) = true := by
        rw [allowed_of_full (iterCheck s0 clientId ts n) clientId ts N n
          (by rw [hopt, hmaxN]) htrim]
        exact decide_eq_true (by omega)
      constructor
      · show (checkLimit (iterCheck s0 clientId ts n) clientId (ts n)).2.options = _
        rw [checkLimit_snd_options, hopt]
      · intro m
        show (((checkLimit (iterCheck s0 clientId ts n) clientId (ts n)).2.clients
            clientId).getD { requests := [], lastAccessed := m }).requests =
          (List.range (n + 1)).map ts
        rw [checkLimit_snd_clients, if_pos rfl, Option.getD_some]
        show newRequestsAt (iterCheck s0 clientId ts n) clientId (ts n) = _
        unfold newRequestsAt
        rw [hallow]
        simp only [eq_self_iff_true, if_true]
        rw [htrim, List.range_succ, List.map_append]
        rfl

/-- Claim C1: starting from a state where the client is unseen, with
`maxRequests = N ≥ 1`, `windowMs ≥ 1`, and `N + 1` calls at non-decreasing
times that all lie strictly within one window of the first call, each of the
first `N` `checkLimit` calls is admitted and the `(N+1)`-th is rejected with
a present, strictly positive `retryAfter`. -/
theorem C1_exhaustion (s0 : RateLimiterState) (clientId : String)
    (ts : Nat → Int) (N i : Nat)
    (hkey : s0.clients clientId = none)
    (hmaxN : s0.options.maxRequests = (N : Int))
    (hN : 1 ≤ N)
    (hw : 1 ≤ s0.options.windowMs)
    (hmono : ∀ j, j < N → ts j ≤ ts (j + 1))
    (hwin : ∀ j, j ≤ N → ts j < ts 0 + s0.options.windowMs)
    (hi : i < N) :
    (checkLimit (iterCheck s0 clientId ts i) clientId (ts i)).1.allowed = true ∧
    (checkLimit (iterCheck s0 clientId ts N) clientId (ts N)).1.allowed = false ∧
    (∃ ra, (checkLimit (iterCheck s0 clientId ts N) clientId (ts N)).1.retryAfter =
      some ra ∧ 0 < ra) := by
  have hmono0 := ts0_le_of_mono ts N hmono
  have hspec := iterCheck_spec s0 clientId ts N hkey hmaxN hmono hwin
  obtain ⟨hopt_i, hstore_i⟩ := hspec i (by omega)
  have htrim_i := trimmed_of_full (iterCheck s0 clientId ts i) clientId ts N i
    s0.options.windowMs (by rw [hopt_i]) (hstore_i (ts i)) hmono0 (hwin i (by omega))
    (by omega)
  obtain ⟨hopt_N, hstore_N⟩ := hspec N le_rfl
  have htrim_N := trimmed_of_full (iterCheck s0 clientId ts N) clientId ts N N
    s0.options.windowMs (by rw [hopt_N]) (hstore_N (ts N)) hmono0 (hwin N le_rfl) le_rfl
  have hallow_N : allowedAt (iterCheck s0 clientId ts N) clientId (ts N) = false := by
    rw [allowed_of_full (iterCheck s0 clientId ts N) clientId ts N N
      (by rw [hopt_N, hmaxN]) htrim_N]
    exact decide_eq_false (lt_irrefl N)
  refine ⟨?_, ?_, ?_⟩
  · rw [checkLimit_fst_allowed,
      allowed_of_full (iterCheck s0 clientId ts i) clientId ts N i
        (by rw [hopt_i, hmaxN]) htrim_i]
    exact decide_eq_true hi
  · rw [checkLimit_fst_allowed, hallow_N]
  · rw [checkLimit_fst_retryAfter, hallow_N]
    simp only [Bool.false_eq_true, if_false]
    refine ⟨jsCeilDiv ((checkLimit (iterCheck s0 clientId ts N) clientId (ts N)).1.resetAt
      - ts N) 1000, rfl, ?_⟩
    apply jsCeilDiv_thousand_pos
    rw [checkLimit_fst_resetAt]
    have hnew : newRequestsAt (iterCheck s0 clientId ts N) clientId (ts N) =
        (List.range N).map ts := by
      unfold newRequestsAt
      rw [hallow_N]
      simp only [Bool.false_eq_true, if_false]
      exact htrim_N
    rw [hnew, hopt_N]
    obtain ⟨m, rfl⟩ : ∃ m, N = m + 1 := ⟨N - 1, by omega⟩
    rw [List.range_succ_eq_map]
    simp only [List.map_cons, List.head?_cons, jsOrElse]
    have hwinN := hwin (m + 1) le_rfl
    by_cases h0 : ts 0 = 0
    · rw [if_pos h0]
      omega
    · rw [if_neg h0]
      omega

/-- Options for the C1 witness. -/
def c1Opts : RateLimiterOptions := { maxRequests := 2, windowMs := 1000 }

/-- Times for the C1 witness: calls at 100, 101, 102. -/
def c1Times (j : Nat) : Int := 100 + j

/-- Claim C1, witness: with limit 2 and window 1000, the first call at time
100 is admitted, and the third call at time 102 is rejected with a positive
`retryAfter`. -/
theorem C1_witness :
    (checkLimit (iterCheck (mkRateLimiterService c1Opts) cId c1Times 0) cId
        (c1Times 0)).1.allowed = true ∧
    (checkLimit (iterCheck (mkRateLimiterService c1Opts) cId c1Times 2) cId
        (c1Times 2)).1.allowed = false ∧
    (∃ ra, (checkLimit (iterCheck (mkRateLimiterService c1Opts) cId c1Times 2) cId
        (c1Times 2)).1.retryAfter = some ra ∧ 0 < ra) :=
  C1_exhaustion (mkRateLimiterService c1Opts) cId c1Times 2 0 rfl (by decide) (by decide)
    (by decide) (by decide) (by decide) (by decide)

end RateLimiterSpec
